import Mathlib

/-!
Verification of the constrained-optimization core of a cement-plant
decision-support system: cement-chemistry routines, a linear-program fuel-mix
optimizer, a Bayesian (surrogate-guided) parameter search, and the
multi-objective process score.  Python floats are embedded as exact rationals
(`ℚ`); external numeric libraries (the LP solver, the Gaussian-process
regressor, the normal CDF) are modelled as oracles whose outputs are passed in
explicitly, with their documented contracts as hypotheses.
-/

/- ---------------------------------------------------------------------------
Chemistry: `CementChemistryConstraints` from
`backend/app/services/physics_informed_models.py`.

A composition is a Python dict that may lack any oxide key; `dict.get(k, 0)`
is embedded as `Option.getD 0`.
--------------------------------------------------------------------------- -/

/-- Oxide composition map; `none` models an absent dict key. -/
structure OxideComp where
  CaO : Option ℚ
  SiO2 : Option ℚ
  Al2O3 : Option ℚ
  Fe2O3 : Option ℚ
  SO3 : Option ℚ
deriving Repr, DecidableEq

/-- The empty dict `{}`. -/
def OxideComp.empty : OxideComp := ⟨none, none, none, none, none⟩

/-- Replace every absent oxide by an explicit 0 entry. -/
def OxideComp.totalize (c : OxideComp) : OxideComp :=
  ⟨some (c.CaO.getD 0), some (c.SiO2.getD 0), some (c.Al2O3.getD 0),
   some (c.Fe2O3.getD 0), some (c.SO3.getD 0)⟩

/-- `CementChemistryConstraints.calculate_lsf`. -/
def calculate_lsf (cao so3 sio2 al2o3 fe2o3 : ℚ) : ℚ :=
  let denominator := 2.8 * sio2 + 1.2 * al2o3 + 0.65 * fe2o3
  if denominator = 0 then 0
  else (cao - 0.7 * so3) / denominator

/-- `CementChemistryConstraints.calculate_silica_modulus`. -/
def calculate_silica_modulus (sio2 al2o3 fe2o3 : ℚ) : ℚ :=
  let denominator := al2o3 + fe2o3
  if denominator = 0 then 0
  else sio2 / denominator

/-- `CementChemistryConstraints.calculate_alumina_modulus`. -/
def calculate_alumina_modulus (al2o3 fe2o3 : ℚ) : ℚ :=
  if fe2o3 = 0 then 0
  else al2o3 / fe2o3

/-- One ratio entry of the `validate_chemistry` result dict. -/
structure RatioCheck where
  value : ℚ
  valid : Bool
  optimal_range : ℚ × ℚ
deriving Repr, DecidableEq

/-- Result dict of `validate_chemistry`. -/
structure ChemValidation where
  lsf : RatioCheck
  sm : RatioCheck
  am : RatioCheck
  overall_valid : Bool
deriving Repr, DecidableEq

/-- `CementChemistryConstraints.validate_chemistry`. -/
def validate_chemistry (c : OxideComp) : ChemValidation :=
  let lsf := calculate_lsf (c.CaO.getD 0) (c.SO3.getD 0) (c.SiO2.getD 0)
    (c.Al2O3.getD 0) (c.Fe2O3.getD 0)
  let sm := calculate_silica_modulus (c.SiO2.getD 0) (c.Al2O3.getD 0) (c.Fe2O3.getD 0)
  let am := calculate_alumina_modulus (c.Al2O3.getD 0) (c.Fe2O3.getD 0)
  { lsf := ⟨lsf, decide (0.92 ≤ lsf ∧ lsf ≤ 0.98), (0.92, 0.98)⟩
    sm := ⟨sm, decide (2.3 ≤ sm ∧ sm ≤ 2.7), (2.3, 2.7)⟩
    am := ⟨am, decide (1.0 ≤ am ∧ am ≤ 2.5), (1.0, 2.5)⟩
    overall_valid := decide ((0.92 ≤ lsf ∧ lsf ≤ 0.98) ∧ (2.3 ≤ sm ∧ sm ≤ 2.7) ∧
      (1.0 ≤ am ∧ am ≤ 2.5)) }

/-- The four Bogue phase values returned by `calculate_clinker_phases`. -/
structure Phases where
  C3S : ℚ
  C2S : ℚ
  C3A : ℚ
  C4AF : ℚ
deriving Repr, DecidableEq

/-- Sum of the four phase values of the result dict. -/
def Phases.total (p : Phases) : ℚ := p.C3S + p.C2S + p.C3A + p.C4AF

/-- The clamp `max(0, min(100, v))` applied to each raw Bogue value. -/
def bogueClamp (v : ℚ) : ℚ := max 0 (min 100 v)

/-- The `phases` dict of `calculate_clinker_phases` before normalization:
raw Bogue linear combinations, each clamped to [0, 100]. -/
def clinkerPhasesRaw (c : OxideComp) : Phases :=
  let cao := c.CaO.getD 0
  let sio2 := c.SiO2.getD 0
  let al2o3 := c.Al2O3.getD 0
  let fe2o3 := c.Fe2O3.getD 0
  let c3s := 4.071 * cao - 7.600 * sio2 - 6.718 * al2o3 - 1.430 * fe2o3
  let c2s := 2.867 * sio2 - 0.7544 * c3s
  let c3a := 2.650 * al2o3 - 1.692 * fe2o3
  let c4af := 3.043 * fe2o3
  ⟨bogueClamp c3s, bogueClamp c2s, bogueClamp c3a, bogueClamp c4af⟩

/-- `CementChemistryConstraints.calculate_clinker_phases`: clamp each Bogue
value to [0, 100], then renormalize to sum 100 — but only when the clamped
total is positive (`if total > 0:` in the source). -/
def calculate_clinker_phases (c : OxideComp) : Phases :=
  let p := clinkerPhasesRaw c
  let total := p.total
  if 0 < total then
    ⟨p.C3S * 100 / total, p.C2S * 100 / total, p.C3A * 100 / total, p.C4AF * 100 / total⟩
  else p

theorem bogueClamp_nonneg (v : ℚ) : 0 ≤ bogueClamp v := le_max_left 0 _

theorem clinkerPhasesRaw_nonneg (c : OxideComp) :
    0 ≤ (clinkerPhasesRaw c).C3S ∧ 0 ≤ (clinkerPhasesRaw c).C2S ∧
    0 ≤ (clinkerPhasesRaw c).C3A ∧ 0 ≤ (clinkerPhasesRaw c).C4AF := by
  refine ⟨?_, ?_, ?_, ?_⟩ <;> exact bogueClamp_nonneg _

/-- C6: the chemistry ratios are computed by exactly the specified formulas,
with each function returning 0 when its denominator is 0. -/
theorem chemistry_ratio_formulas (cao so3 sio2 al2o3 fe2o3 : ℚ) :
    (2.8 * sio2 + 1.2 * al2o3 + 0.65 * fe2o3 = 0 →
      calculate_lsf cao so3 sio2 al2o3 fe2o3 = 0) ∧
    (2.8 * sio2 + 1.2 * al2o3 + 0.65 * fe2o3 ≠ 0 →
      calculate_lsf cao so3 sio2 al2o3 fe2o3 =
        (cao - 0.7 * so3) / (2.8 * sio2 + 1.2 * al2o3 + 0.65 * fe2o3)) ∧
    (al2o3 + fe2o3 = 0 → calculate_silica_modulus sio2 al2o3 fe2o3 = 0) ∧
    (al2o3 + fe2o3 ≠ 0 →
      calculate_silica_modulus sio2 al2o3 fe2o3 = sio2 / (al2o3 + fe2o3)) ∧
    (fe2o3 = 0 → calculate_alumina_modulus al2o3 fe2o3 = 0) ∧
    (fe2o3 ≠ 0 → calculate_alumina_modulus al2o3 fe2o3 = al2o3 / fe2o3) := by
  refine ⟨fun h => ?_, fun h => ?_, fun h => ?_, fun h => ?_, fun h => ?_, fun h => ?_⟩ <;>
    simp [calculate_lsf, calculate_silica_modulus, calculate_alumina_modulus, h]

/-- Witness for C6 at concrete inputs: a zero denominator returns 0, and a
nonzero denominator returns the quotient. -/
theorem chemistry_ratio_formulas_witness :
    calculate_lsf 65 2 0 0 0 = 0 ∧
    calculate_lsf 65 2 21 5.5 3.2 =
      (65 - 0.7 * 2) / (2.8 * 21 + 1.2 * 5.5 + 0.65 * 3.2) ∧
    calculate_alumina_modulus 5.5 3.2 = 5.5 / 3.2 := by
  refine ⟨(chemistry_ratio_formulas 65 2 0 0 0).1 (by norm_num),
    (chemistry_ratio_formulas 65 2 21 5.5 3.2).2.1 (by norm_num),
    (chemistry_ratio_formulas 65 2 21 5.5 3.2).2.2.2.2.2 (by norm_num)⟩

/-- C5 counterexample: on the all-absent (hence all-zero) composition, every
clamped Bogue value is 0, the `total > 0` guard fails, and the returned phases
sum to 0 — not within 1e-6 of 100. -/
theorem clinker_phases_zero_comp_counterexample :
    (calculate_clinker_phases OxideComp.empty).total = 0 ∧
    ¬ |(calculate_clinker_phases OxideComp.empty).total - 100| ≤ 1 / 1000000 := by
  have h0 : (calculate_clinker_phases OxideComp.empty).total = 0 := by
    norm_num [calculate_clinker_phases, clinkerPhasesRaw, Phases.total, bogueClamp,
      OxideComp.empty]
  refine ⟨h0, ?_⟩
  rw [h0]
  norm_num

/-- C5 (amended): no phase value is ever negative; whenever the clamped Bogue
total is positive the returned values sum to exactly 100 (hence within 1e-6);
when the clamped total is 0 the values are returned unnormalized and sum to 0. -/
theorem clinker_phases_renormalization (c : OxideComp) :
    (0 ≤ (calculate_clinker_phases c).C3S ∧ 0 ≤ (calculate_clinker_phases c).C2S ∧
     0 ≤ (calculate_clinker_phases c).C3A ∧ 0 ≤ (calculate_clinker_phases c).C4AF) ∧
    (0 < (clinkerPhasesRaw c).total →
      |(calculate_clinker_phases c).total - 100| ≤ 1 / 1000000) ∧
    ((clinkerPhasesRaw c).total = 0 → (calculate_clinker_phases c).total = 0) := by
  obtain ⟨h1, h2, h3, h4⟩ := clinkerPhasesRaw_nonneg c
  refine ⟨?_, fun hpos => ?_, fun hzero => ?_⟩
  · unfold calculate_clinker_phases
    by_cases hpos : 0 < (clinkerPhasesRaw c).total
    · simp only [hpos, if_true]
      have ht := hpos.le
      exact ⟨by positivity, by positivity, by positivity, by positivity⟩
    · simp only [hpos, if_false]
      exact ⟨h1, h2, h3, h4⟩
  · have htot : (calculate_clinker_phases c).total = 100 := by
      unfold calculate_clinker_phases
      simp only [hpos, if_true]
      unfold Phases.total at *
      have hne : (clinkerPhasesRaw c).C3S + (clinkerPhasesRaw c).C2S +
          (clinkerPhasesRaw c).C3A + (clinkerPhasesRaw c).C4AF ≠ 0 := ne_of_gt hpos
      field_simp
      ring
    rw [htot]
    norm_num
  · unfold calculate_clinker_phases
    have hnpos : ¬ 0 < (clinkerPhasesRaw c).total := by
      rw [hzero]
      exact lt_irrefl 0
    simp only [hnpos, if_false]
    exact hzero

/-- Witness for C5 (amended) at a realistic composition whose clamped Bogue
total is positive: phases sum to 100 within 1e-6 and are non-negative. -/
theorem clinker_phases_renormalization_witness :
    0 < (clinkerPhasesRaw ⟨some 65, some 21, some 5.5, some 3.2, some 2⟩).total ∧
    |(calculate_clinker_phases ⟨some 65, some 21, some 5.5, some 3.2, some 2⟩).total - 100|
      ≤ 1 / 1000000 ∧
    0 ≤ (calculate_clinker_phases ⟨some 65, some 21, some 5.5, some 3.2, some 2⟩).C3S := by
  have hpos : 0 < (clinkerPhasesRaw ⟨some 65, some 21, some 5.5, some 3.2, some 2⟩).total := by
    norm_num [clinkerPhasesRaw, Phases.total, bogueClamp]
  exact ⟨hpos,
    (clinker_phases_renormalization ⟨some 65, some 21, some 5.5, some 3.2, some 2⟩).2.1 hpos,
    (clinker_phases_renormalization ⟨some 65, some 21, some 5.5, some 3.2, some 2⟩).1.1⟩

/-- C10: both chemistry entry points treat an absent oxide key exactly as an
explicit 0 entry, and validating the empty composition yields
LSF = SM = AM = 0 with `overall_valid = false`. -/
theorem chemistry_missing_keys_default_zero :
    (∀ c : OxideComp, validate_chemistry c = validate_chemistry c.totalize ∧
      calculate_clinker_phases c = calculate_clinker_phases c.totalize) ∧
    (validate_chemistry OxideComp.empty).lsf.value = 0 ∧
    (validate_chemistry OxideComp.empty).sm.value = 0 ∧
    (validate_chemistry OxideComp.empty).am.value = 0 ∧
    (validate_chemistry OxideComp.empty).overall_valid = false := by
  refine ⟨fun c => ⟨rfl, rfl⟩, ?_, ?_, ?_, ?_⟩ <;>
    norm_num [validate_chemistry, calculate_lsf, calculate_silica_modulus,
      calculate_alumina_modulus, OxideComp.empty]

/- ---------------------------------------------------------------------------
Fuel-mix optimizer: `AlternativeFuelOptimizer.optimize_fuel_mix` from
`backend/app/services/alternative_fuel_optimizer.py`.

The decision vector has one fraction per fuel of `self.fuel_properties`, in
dict order.  `scipy.optimize.linprog` is external; it is modelled as an oracle
whose reported solution is passed in as a `LinprogResult`, and the claims take
the solver contract (a reported success is a feasible point; a feasible
problem is reported solvable) as explicit hypotheses.
--------------------------------------------------------------------------- -/

/-- The six cataloged fuels, in `fuel_properties` dict order. -/
inductive Fuel
  | coal
  | rice_husk
  | rdf
  | biomass
  | pet_coke
  | tyre_chips
deriving Repr, DecidableEq

/-- `fuels = list(self.fuel_properties.keys())`. -/
def fuelsList : List Fuel :=
  [Fuel.coal, Fuel.rice_husk, Fuel.rdf, Fuel.biomass, Fuel.pet_coke, Fuel.tyre_chips]

/-- `fuel_properties[f]['calorific_value']` (GJ/tonne). -/
def calorific_value : Fuel → ℚ
  | Fuel.coal => 25.5
  | Fuel.rice_husk => 16.2
  | Fuel.rdf => 18.5
  | Fuel.biomass => 14.8
  | Fuel.pet_coke => 32.5
  | Fuel.tyre_chips => 28.0

/-- `fuel_properties[f]['ash_content']` (%). -/
def ash_content : Fuel → ℚ
  | Fuel.coal => 12
  | Fuel.rice_husk => 18
  | Fuel.rdf => 15
  | Fuel.biomass => 8
  | Fuel.pet_coke => 1
  | Fuel.tyre_chips => 6

/-- `fuel_properties[f]['moisture']` (%). -/
def moisture : Fuel → ℚ
  | Fuel.coal => 5
  | Fuel.rice_husk => 10
  | Fuel.rdf => 20
  | Fuel.biomass => 15
  | Fuel.pet_coke => 1
  | Fuel.tyre_chips => 2

/-- `fuel_properties[f]['cost_per_gj']` (USD/GJ). -/
def cost_per_gj : Fuel → ℚ
  | Fuel.coal => 3.2
  | Fuel.rice_husk => 1.8
  | Fuel.rdf => 0.5
  | Fuel.biomass => 2.1
  | Fuel.pet_coke => 2.8
  | Fuel.tyre_chips => 1.2

/-- `fuel_properties[f]['co2_emission']` (kg CO2/GJ). -/
def co2_emission : Fuel → ℚ
  | Fuel.coal => 94.6
  | Fuel.rice_husk => 9.46
  | Fuel.rdf => 37.84
  | Fuel.biomass => 4.73
  | Fuel.pet_coke => 92.8
  | Fuel.tyre_chips => 75.0

/-- `fuel_properties[f]['handling_cost']` (USD/tonne). -/
def handling_cost : Fuel → ℚ
  | Fuel.coal => 0.5
  | Fuel.rice_husk => 1.2
  | Fuel.rdf => 2.0
  | Fuel.biomass => 1.5
  | Fuel.pet_coke => 0.8
  | Fuel.tyre_chips => 1.8

/-- Sum of a per-fuel quantity over the fuel list (one matrix row). -/
def sumF (g : Fuel → ℚ) : ℚ := (fuelsList.map g).sum

/-- Arguments of one `optimize_fuel_mix` call.  `availability` is the
`availability_constraints` dict (assoc list, absent fuels get no row);
`maxAsh`/`maxMoisture` model `quality_requirements.get` with `none` falling
back to `self.constraints` defaults 15 and 12; `maxCO2` models the optional
`environmental_targets['max_co2_kg_per_gj']` entry. -/
structure MixRequest where
  totalEnergy : ℚ
  availability : List (Fuel × ℚ)
  maxAsh : Option ℚ
  maxMoisture : Option ℚ
  maxCO2 : Option ℚ

/-- The feasible region of the linear program assembled by
`optimize_fuel_mix`: the equality row `sum = 1`, one availability row
`total_energy_required * x_f <= availability[f]` per dict entry, the ash,
moisture and alternative-fuel-rate rows, the optional CO2 row, and the box
bounds `0 <= x_f <= 1`. -/
structure Feasible (req : MixRequest) (x : Fuel → ℚ) : Prop where
  sum_one : sumF x = 1
  avail : ∀ p ∈ req.availability, req.totalEnergy * x p.1 ≤ p.2
  ash : sumF (fun f => ash_content f * x f) ≤ req.maxAsh.getD 15
  moist : sumF (fun f => moisture f * x f) ≤ req.maxMoisture.getD 12
  alt_rate : sumF (fun f => (if f = Fuel.coal then 0 else 1) * x f) ≤ 50 / 100
  co2 : ∀ m, req.maxCO2 = some m → sumF (fun f => co2_emission f * x f) ≤ m
  bounds : ∀ f : Fuel, 0 ≤ x f ∧ x f ≤ 1

/-- Objective handed to `linprog`:
`c = [fuel_properties[f]['cost_per_gj'] for f in fuels]`, as a linear
functional of the fraction vector.  Handling costs do not appear. -/
def lpObjective (x : Fuel → ℚ) : ℚ := sumF (fun f => cost_per_gj f * x f)

/-- Follows the spec's words (§4.1 Objective): total cost
`Σ fraction × (cost-per-energy + handling-cost-per-energy)`, reading
handling-cost-per-energy as the cataloged per-tonne handling cost divided by
the calorific value (tonnes per GJ conversion). -/
def specObjectiveWithHandling (x : Fuel → ℚ) : ℚ :=
  sumF (fun f => (cost_per_gj f + handling_cost f / calorific_value f) * x f)

/-- Output of the external `scipy.optimize.linprog` call. -/
structure LinprogResult where
  success : Bool
  x : Fuel → ℚ
  message : String

/-- Solver contract, success direction: a result reported as a success is a
feasible point of the assembled program. -/
def SolverSound (req : MixRequest) (r : LinprogResult) : Prop :=
  r.success = true → Feasible req r.x

/-- Solver contract, failure direction: a feasible program is not reported as
infeasible. -/
def SolverComplete (req : MixRequest) (r : LinprogResult) : Prop :=
  (∃ x, Feasible req x) → r.success = true

/-- The result dict of `optimize_fuel_mix`.  `fuelMix` is
`fuel_mix = dict(zip(fuels, result.x))`; on failure the dict carries
`error = 'Optimization failed'` and the solver's message.  Display-only
derived entries (rounded percentage mix, mix properties, savings, CO2
reduction, implementation plan) are omitted. -/
structure OptimizeResult where
  success : Bool
  fuelMix : List (Fuel × ℚ)
  error : Option String
  message : Option String

/-- `AlternativeFuelOptimizer.optimize_fuel_mix`, given the oracle's solver
result.  The Python body is a total function of the solver outcome: the
`result.success` branch builds the success dict, the other branch (and the
`except` handler) build a `success: False` dict. -/
def optimize_fuel_mix (req : MixRequest) (r : LinprogResult) : OptimizeResult :=
  if r.success then
    ⟨true, fuelsList.map (fun f => (f, r.x f)), none, none⟩
  else
    ⟨false, [], some "Optimization failed", some r.message⟩

/-- Sum of the reported blend fractions of a result. -/
def OptimizeResult.mixSum (o : OptimizeResult) : ℚ := (o.fuelMix.map Prod.snd).sum

/-- The all-coal fraction vector (the baseline fuel alone). -/
def coalOnly : Fuel → ℚ := fun f => if f = Fuel.coal then 1 else 0

theorem coalOnly_feasible (e : ℚ) (avail : List (Fuel × ℚ))
    (h : ∀ p ∈ avail, e * coalOnly p.1 ≤ p.2) :
    Feasible ⟨e, avail, none, none, none⟩ coalOnly := by
  refine ⟨?_, h, ?_, ?_, ?_, ?_, ?_⟩
  · simp [sumF, fuelsList, coalOnly]
  · simp only [sumF, fuelsList, coalOnly, Option.getD]
    simp [ash_content]
    norm_num
  · simp only [sumF, fuelsList, coalOnly, Option.getD]
    simp [moisture]
    norm_num
  · simp [sumF, fuelsList, coalOnly]
    norm_num
  · intro m hm
    cases hm
  · intro f
    by_cases hf : f = Fuel.coal <;> simp [coalOnly, hf]

theorem mixSum_eq_sumF (req : MixRequest) (r : LinprogResult) (h : r.success = true) :
    (optimize_fuel_mix req r).mixSum = sumF r.x := by
  simp [optimize_fuel_mix, h, OptimizeResult.mixSum, sumF, List.map_map, Function.comp_def]

/-- C1: every successful `optimize_fuel_mix` result reports blend fractions
summing to 1 within 1e-6 (the equality row `sum(x) = 1` is part of the
program, so a sound solver's solution sums to exactly 1). -/
theorem fuel_mix_fractions_sum_to_one (req : MixRequest) (r : LinprogResult)
    (hs : SolverSound req r) (hok : (optimize_fuel_mix req r).success = true) :
    |(optimize_fuel_mix req r).mixSum - 1| ≤ 1 / 1000000 := by
  have hr : r.success = true := by
    by_contra hr
    simp only [Bool.not_eq_true] at hr
    simp [optimize_fuel_mix, hr] at hok
  have hfe := hs hr
  rw [mixSum_eq_sumF req r hr, hfe.sum_one]
  norm_num

/-- Witness for C1: a solver result returning the all-coal vertex on a
concrete request is sound, and the reported fractions sum to 1 ± 1e-6. -/
theorem fuel_mix_fractions_sum_to_one_witness :
    |(optimize_fuel_mix ⟨100, [], none, none, none⟩
        ⟨true, coalOnly, "Optimization terminated successfully."⟩).mixSum - 1|
      ≤ 1 / 1000000 :=
  fuel_mix_fractions_sum_to_one ⟨100, [], none, none, none⟩
    ⟨true, coalOnly, "Optimization terminated successfully."⟩
    (fun _ => coalOnly_feasible 100 [] (by simp))
    (by simp [optimize_fuel_mix])

/-- C2: on an infeasible program, a sound solver reports failure and
`optimize_fuel_mix` returns the structured failure dict — `success = False`,
the human-readable `error = 'Optimization failed'`, and the solver's message —
rather than raising (the embedding is a total function; the Python body wraps
the solve in `try/except` and both failure paths return a dict). -/
theorem infeasible_reports_failure (req : MixRequest) (r : LinprogResult)
    (hinf : ∀ x, ¬ Feasible req x) (hs : SolverSound req r) :
    (optimize_fuel_mix req r).success = false ∧
    (optimize_fuel_mix req r).error = some "Optimization failed" ∧
    (optimize_fuel_mix req r).message = some r.message := by
  have hr : r.success = false := by
    cases hr : r.success
    · rfl
    · exact absurd (hs hr) (hinf r.x)
  simp [optimize_fuel_mix, hr]

/-- Request with positive demand and every fuel's availability pinned to 0:
the availability rows force `x = 0`, contradicting the sum-to-one row. -/
def allZeroAvailReq : MixRequest :=
  ⟨100, fuelsList.map (fun f => (f, 0)), none, none, none⟩

theorem allZeroAvailReq_infeasible : ∀ x, ¬ Feasible allZeroAvailReq x := by
  intro x h
  have hall : ∀ f ∈ fuelsList, x f = 0 := by
    intro f hf
    have hrow := h.avail (f, 0) (List.mem_map_of_mem _ hf)
    have hlow := (h.bounds f).1
    simp only [allZeroAvailReq] at hrow
    linarith
  have hzero : sumF x = 0 := by
    simp only [sumF]
    apply List.sum_eq_zero
    intro q hq
    obtain ⟨f, hf, rfl⟩ := List.mem_map.mp hq
    exact hall f hf
  rw [h.sum_one] at hzero
  exact one_ne_zero hzero

/-- Witness for C2: on the all-availabilities-zero request, the solver's
failure report is surfaced as the structured failure dict. -/
theorem infeasible_reports_failure_witness :
    (optimize_fuel_mix allZeroAvailReq
        ⟨false, fun _ => 0, "The problem is infeasible."⟩).success = false ∧
    (optimize_fuel_mix allZeroAvailReq
        ⟨false, fun _ => 0, "The problem is infeasible."⟩).error =
      some "Optimization failed" ∧
    (optimize_fuel_mix allZeroAvailReq
        ⟨false, fun _ => 0, "The problem is infeasible."⟩).message =
      some "The problem is infeasible." :=
  infeasible_reports_failure allZeroAvailReq
    ⟨false, fun _ => 0, "The problem is infeasible."⟩
    allZeroAvailReq_infeasible
    (fun h => by cases h)

/-- C3 counterexample: at `total_energy_required = 0` the equality row
`sum(x) = 1` is still assembled, so the all-zero mix is infeasible (while the
all-coal mix is feasible): no sound solver run can return the all-zero mix
the claim requires. -/
theorem zero_energy_all_zero_infeasible :
    Feasible ⟨0, [], none, none, none⟩ coalOnly ∧
    ¬ Feasible ⟨0, [], none, none, none⟩ (fun _ => 0) := by
  constructor
  · exact coalOnly_feasible 0 [] (by simp)
  · intro h
    have h1 := h.sum_one
    simp [sumF, fuelsList] at h1

/-- C3 (amended): with `total_energy_required = 0` and non-negative
availability entries, the availability rows are vacuous and the program stays
feasible, so a sound-and-complete solver reports success — but the returned
mix still satisfies the sum-to-one row, hence is not all-zero. -/
theorem zero_energy_succeeds_sum_to_one (avail : List (Fuel × ℚ))
    (r : LinprogResult) (hav : ∀ p ∈ avail, 0 ≤ p.2)
    (hs : SolverSound ⟨0, avail, none, none, none⟩ r)
    (hc : SolverComplete ⟨0, avail, none, none, none⟩ r) :
    (optimize_fuel_mix ⟨0, avail, none, none, none⟩ r).success = true ∧
    (optimize_fuel_mix ⟨0, avail, none, none, none⟩ r).mixSum = 1 ∧
    ¬ ∀ p ∈ (optimize_fuel_mix ⟨0, avail, none, none, none⟩ r).fuelMix, p.2 = 0 := by
  have hfe : Feasible ⟨0, avail, none, none, none⟩ coalOnly := by
    apply coalOnly_feasible
    intro p hp
    have := hav p hp
    linarith [this]
  have hr : r.success = true := hc ⟨coalOnly, hfe⟩
  have hsum : (optimize_fuel_mix ⟨0, avail, none, none, none⟩ r).mixSum = 1 := by
    rw [mixSum_eq_sumF _ r hr, (hs hr).sum_one]
  refine ⟨by simp [optimize_fuel_mix, hr], hsum, fun hall => ?_⟩
  have hzero : (optimize_fuel_mix ⟨0, avail, none, none, none⟩ r).mixSum = 0 := by
    unfold OptimizeResult.mixSum
    apply List.sum_eq_zero
    intro q hq
    obtain ⟨p, hp, rfl⟩ := List.mem_map.mp hq
    exact hall p hp
  rw [hsum] at hzero
  exact one_ne_zero hzero

/-- Witness for C3 (amended): a sound-and-complete solver run on the
zero-energy request succeeds with a sum-to-one, not-all-zero mix. -/
theorem zero_energy_succeeds_sum_to_one_witness :
    (optimize_fuel_mix ⟨0, [], none, none, none⟩ ⟨true, coalOnly, ""⟩).success = true ∧
    (optimize_fuel_mix ⟨0, [], none, none, none⟩ ⟨true, coalOnly, ""⟩).mixSum = 1 ∧
    ¬ ∀ p ∈ (optimize_fuel_mix ⟨0, [], none, none, none⟩
        ⟨true, coalOnly, ""⟩).fuelMix, p.2 = 0 :=
  zero_energy_succeeds_sum_to_one [] ⟨true, coalOnly, ""⟩ (by simp)
    (fun _ => coalOnly_feasible 0 [] (by simp))
    (fun _ => rfl)

/-- C4 counterexample: the objective vector built at line 102 prices a pure
coal mix at `cost_per_gj` alone, which differs from the spec's
cost-plus-handling objective. -/
theorem objective_excludes_handling_counterexample :
    lpObjective coalOnly ≠ specObjectiveWithHandling coalOnly := by
  simp only [lpObjective, specObjectiveWithHandling, sumF, fuelsList, coalOnly]
  simp [cost_per_gj, handling_cost, calorific_value]
  norm_num

/-- C4 (amended): the quantity `optimize_fuel_mix` asks `linprog` to minimize
is `Σ fraction × cost-per-energy` only — the marginal objective cost of each
fuel is exactly its `cost_per_gj`, with no handling-cost term. -/
theorem objective_is_cost_only (f : Fuel) :
    lpObjective (fun g => if g = f then 1 else 0) = cost_per_gj f := by
  cases f <;> simp [lpObjective, sumF, fuelsList, cost_per_gj]

/- ---------------------------------------------------------------------------
Bayesian optimizer: `BayesianOptimizer` from
`backend/app/services/physics_informed_models.py`.

External numerics are modelled as oracles: the Gaussian process surrogate
(scikit-learn) is represented by its predicted mean/std passed into the
acquisition function, the standard normal CDF/PDF (scipy / the local
`exp`-based formula) as opaque function parameters, `np.random.uniform` by
per-dimension unit samples in [0, 1], and each `scipy.optimize.minimize`
(L-BFGS-B) restart by its reported `(x, fun)` pair.
--------------------------------------------------------------------------- -/

/-- `np.max` of an observation list (the source guards against emptiness
before calling it; the `[]` case is an arbitrary total-function default). -/
def npMax : List ℚ → ℚ
  | [] => 0
  | h :: t => t.foldl max h

theorem foldl_max_le_self (t : List ℚ) (a : ℚ) : a ≤ t.foldl max a := by
  induction t generalizing a with
  | nil => exact le_refl a
  | cons b t ih => exact le_trans (le_max_left a b) (ih (max a b))

theorem le_foldl_max (t : List ℚ) (a : ℚ) : ∀ y ∈ t, y ≤ t.foldl max a := by
  induction t generalizing a with
  | nil => intro y hy; cases hy
  | cons b t ih =>
    intro y hy
    cases hy with
    | head => exact le_trans (le_max_right a b) (foldl_max_le_self t (max a b))
    | tail _ hmem => exact ih (max a b) y hmem

theorem foldl_max_mem (t : List ℚ) (a : ℚ) :
    t.foldl max a = a ∨ t.foldl max a ∈ t := by
  induction t generalizing a with
  | nil => exact Or.inl rfl
  | cons b t ih =>
    rcases ih (max a b) with h | h
    · rcases max_choice a b with hm | hm
      · exact Or.inl (by rw [List.foldl_cons, h, hm])
      · exact Or.inr (by rw [List.foldl_cons, h, hm]; exact List.mem_cons_self b t)
    · exact Or.inr (List.mem_cons_of_mem b h)

theorem npMax_mem (l : List ℚ) (h : l ≠ []) : npMax l ∈ l := by
  cases l with
  | nil => exact absurd rfl h
  | cons a t =>
    have he : npMax (a :: t) = t.foldl max a := rfl
    rcases foldl_max_mem t a with hm | hm
    · rw [he, hm]
      exact List.mem_cons_self a t
    · rw [he]
      exact List.mem_cons_of_mem a hm

theorem le_npMax (l : List ℚ) (y : ℚ) (hy : y ∈ l) : y ≤ npMax l := by
  cases l with
  | nil => cases hy
  | cons a t =>
    rcases List.mem_cons.mp hy with rfl | hmem
    · exact foldl_max_le_self t y
    · exact le_foldl_max t a y hmem

/-- The default exploration margin `xi=0.01` of `acquisition_function`. -/
def xiDefault : ℚ := 0.01

/-- `BayesianOptimizer.acquisition_function` (Expected Improvement).  `mu` and
`sigma` are the surrogate's prediction at the query point; `cdf`/`pdf` stand
for `scipy.stats.norm.cdf` and the local `_norm_pdf`.  The source computes
`ei = imp * cdf(Z) + sigma * pdf(Z)` and then forces `ei[sigma == 0.0] = 0.0`,
so the value at a zero-variance point is 0. -/
def acquisition_function (cdf pdf : ℚ → ℚ) (mu sigma : ℚ)
    (y_observed : List ℚ) (xi : ℚ) : ℚ :=
  let incumbent := if 0 < y_observed.length then npMax y_observed else 0
  let imp := mu - incumbent - xi
  if sigma = 0 then 0 else imp * cdf (imp / sigma) + sigma * pdf (imp / sigma)

/-- C7: with a non-empty observation history, the acquisition value is
`EI = (μ − f_best − ξ)·Φ(Z) + σ·φ(Z)` with `Z = (μ − f_best − ξ)/σ` and the
default margin ξ = 0.01, where `f_best` is the maximum observed objective
value (it is an observed value and dominates every observation); at σ = 0 the
value is forced to 0. -/
theorem expected_improvement_formula (cdf pdf : ℚ → ℚ) (mu sigma : ℚ)
    (ys : List ℚ) (hne : ys ≠ []) :
    (sigma = 0 → acquisition_function cdf pdf mu sigma ys xiDefault = 0) ∧
    (sigma ≠ 0 → acquisition_function cdf pdf mu sigma ys xiDefault =
      (mu - npMax ys - xiDefault) * cdf ((mu - npMax ys - xiDefault) / sigma) +
        sigma * pdf ((mu - npMax ys - xiDefault) / sigma)) ∧
    npMax ys ∈ ys ∧ (∀ y ∈ ys, y ≤ npMax ys) ∧ xiDefault = 1 / 100 := by
  have hlen : 0 < ys.length := List.length_pos.mpr hne
  refine ⟨fun h0 => ?_, fun hσ => ?_, npMax_mem ys hne, le_npMax ys, by norm_num [xiDefault]⟩
  · simp [acquisition_function, h0]
  · simp [acquisition_function, hσ, hlen]

/-- Witness for C7: at σ = 0 the acquisition value is 0, and the incumbent of
the concrete history [1, 2] is one of its entries. -/
theorem expected_improvement_formula_witness :
    acquisition_function (fun z => z) (fun z => z) 3 0 [1, 2] xiDefault = 0 ∧
    npMax [1, 2] ∈ [(1 : ℚ), 2] :=
  ⟨(expected_improvement_formula (fun z => z) (fun z => z) 3 0 [1, 2]
      (by simp)).1 rfl,
   (expected_improvement_formula (fun z => z) (fun z => z) 3 0 [1, 2]
      (by simp)).2.2.1⟩

/-- `BayesianOptimizer` mutable state: the construction-time bounds dict and
the observation history. -/
structure BayesState where
  bounds : List (String × (ℚ × ℚ))
  X_observed : List (List ℚ)
  y_observed : List ℚ

/-- `self.bounds_array = np.array(list(bounds.values()))`. -/
def bounds_array (st : BayesState) : List (ℚ × ℚ) := st.bounds.map Prod.snd

/-- `self.param_names = list(bounds.keys())`. -/
def param_names (st : BayesState) : List String := st.bounds.map Prod.fst

/-- `np.random.uniform(low, high)` vectorized over the bound columns: each
dimension's unit sample `u ∈ [0, 1]` is mapped affinely onto its interval. -/
def uniformSample (bnds : List (ℚ × ℚ)) (u : List ℚ) : List ℚ :=
  (bnds.zip u).map (fun q => q.1.1 + q.2 * (q.1.2 - q.1.1))

/-- Reported outcome of one `scipy.optimize.minimize` (L-BFGS-B) restart on
the negated acquisition function: solution point and objective value. -/
structure LBFGSResult where
  x : List ℚ
  fval : ℚ

/-- One step of the best-restart tracking loop: `best_ei` starts at `-np.inf`
(modelled by `none`) and a restart wins when `-res.fun > best_ei`. -/
def pickBest (acc : Option LBFGSResult) (res : LBFGSResult) : Option LBFGSResult :=
  match acc with
  | none => some res
  | some b => if -b.fval < -res.fval then some res else some b

/-- The restart loop of `suggest_next_point` over its 100 restarts. -/
def bestRestart (l : List LBFGSResult) : Option LBFGSResult := l.foldl pickBest none

theorem foldl_pickBest_some (l : List LBFGSResult) (a : LBFGSResult) :
    ∃ b, l.foldl pickBest (some a) = some b ∧ (b = a ∨ b ∈ l) := by
  induction l generalizing a with
  | nil => exact ⟨a, rfl, Or.inl rfl⟩
  | cons c t ih =>
    rw [List.foldl_cons]
    show ∃ b, t.foldl pickBest (pickBest (some a) c) = some b ∧ _
    unfold pickBest
    by_cases hc : -a.fval < -c.fval
    · simp only [hc, if_true]
      obtain ⟨b, hb, hmem⟩ := ih c
      refine ⟨b, hb, ?_⟩
      rcases hmem with h | h
      · exact Or.inr (h ▸ List.mem_cons_self c t)
      · exact Or.inr (List.mem_cons_of_mem c h)
    · simp only [hc, if_false]
      obtain ⟨b, hb, hmem⟩ := ih a
      refine ⟨b, hb, ?_⟩
      rcases hmem with h | h
      · exact Or.inl h
      · exact Or.inr (List.mem_cons_of_mem c h)

theorem bestRestart_mem (l : List LBFGSResult) (h : l ≠ []) :
    ∃ b ∈ l, bestRestart l = some b := by
  cases l with
  | nil => exact absurd rfl h
  | cons c t =>
    obtain ⟨b, hb, hmem⟩ := foldl_pickBest_some t c
    refine ⟨b, ?_, hb⟩
    rcases hmem with h' | h'
    · exact h' ▸ List.mem_cons_self c t
    · exact List.mem_cons_of_mem c h'

/-- The parameter vector chosen by `BayesianOptimizer.suggest_next_point`:
below 5 observations, one fresh uniform draw within bounds; otherwise the
best of the L-BFGS-B restarts (the GP fit influences the oracle's `restarts`
but not the selection logic).  The `none` fallback mirrors the
`best_point = None` initial value, unreachable while restarts run. -/
def suggestPoint (st : BayesState) (u : List ℚ) (restarts : List LBFGSResult) :
    List ℚ :=
  if st.X_observed.length < 5 then uniformSample (bounds_array st) u
  else
    match bestRestart restarts with
    | some b => b.x
    | none => []

/-- `suggest_next_point` proper: `dict(zip(self.param_names, point))`. -/
def suggest_next_point (st : BayesState) (u : List ℚ)
    (restarts : List LBFGSResult) : List (String × ℚ) :=
  (param_names st).zip (suggestPoint st u restarts)

/-- Coordinate-wise containment of a point in the bound intervals. -/
def withinBounds (bnds : List (ℚ × ℚ)) (p : List ℚ) : Prop :=
  List.Forall₂ (fun b v => b.1 ≤ v ∧ v ≤ b.2) bnds p

theorem uniformSample_within (bnds : List (ℚ × ℚ)) (u : List ℚ)
    (hlen : u.length = bnds.length) (hu : ∀ v ∈ u, 0 ≤ v ∧ v ≤ 1)
    (hb : ∀ b ∈ bnds, b.1 ≤ b.2) :
    withinBounds bnds (uniformSample bnds u) := by
  induction bnds generalizing u with
  | nil =>
    cases u with
    | nil => exact List.Forall₂.nil
    | cons v t => cases hlen
  | cons b bt ih =>
    cases u with
    | nil => cases hlen
    | cons v vt =>
      have hv := hu v (List.mem_cons_self v vt)
      have hbb := hb b (List.mem_cons_self b bt)
      have hstep : uniformSample (b :: bt) (v :: vt) =
          (b.1 + v * (b.2 - b.1)) :: uniformSample bt vt := rfl
      rw [withinBounds, hstep]
      refine List.Forall₂.cons ⟨?_, ?_⟩ (ih vt (by simpa using hlen)
        (fun w hw => hu w (List.mem_cons_of_mem v hw))
        (fun c hc => hb c (List.mem_cons_of_mem b hc)))
      · nlinarith [mul_nonneg hv.1 (sub_nonneg.mpr hbb)]
      · nlinarith [mul_nonneg (sub_nonneg.mpr hv.2) (sub_nonneg.mpr hbb)]

/-- C8: under the modelled contracts (unit samples in [0, 1], well-ordered
bounds, at least one restart, and each L-BFGS-B restart respecting its box
bounds), every `suggest_next_point` call yields coordinates within the
construction-time inclusive bounds; and with fewer than 5 observations the
returned point is exactly the fresh uniform draw within those bounds. -/
theorem suggest_next_point_in_bounds (st : BayesState) (u : List ℚ)
    (restarts : List LBFGSResult)
    (hlen : u.length = (bounds_array st).length)
    (hu : ∀ v ∈ u, 0 ≤ v ∧ v ≤ 1)
    (hb : ∀ b ∈ bounds_array st, b.1 ≤ b.2)
    (hre : restarts ≠ [])
    (hrx : ∀ res ∈ restarts, withinBounds (bounds_array st) res.x) :
    withinBounds (bounds_array st) (suggestPoint st u restarts) ∧
    (st.X_observed.length < 5 →
      suggestPoint st u restarts = uniformSample (bounds_array st) u) := by
  by_cases h5 : st.X_observed.length < 5
  · refine ⟨?_, fun _ => by simp [suggestPoint, h5]⟩
    rw [show suggestPoint st u restarts = uniformSample (bounds_array st) u from
      by simp [suggestPoint, h5]]
    exact uniformSample_within _ u hlen hu hb
  · obtain ⟨b, hmem, hbest⟩ := bestRestart_mem restarts hre
    refine ⟨?_, fun h => absurd h h5⟩
    rw [show suggestPoint st u restarts = b.x from by simp [suggestPoint, h5, hbest]]
    exact hrx b hmem

/-- Witness for C8: a fresh single-dimension optimizer (kiln temperature in
[1350, 1500]) with unit sample 1/2 and one in-bounds restart satisfies the
contracts, so the suggested point is in bounds and equals the uniform draw. -/
theorem suggest_next_point_in_bounds_witness :
    withinBounds (bounds_array ⟨[("kiln_temperature", (1350, 1500))], [], []⟩)
      (suggestPoint ⟨[("kiln_temperature", (1350, 1500))], [], []⟩ [1 / 2]
        [⟨[1400], 0⟩]) ∧
    ((⟨[("kiln_temperature", (1350, 1500))], [], []⟩ : BayesState).X_observed.length < 5 →
      suggestPoint ⟨[("kiln_temperature", (1350, 1500))], [], []⟩ [1 / 2] [⟨[1400], 0⟩] =
        uniformSample (bounds_array ⟨[("kiln_temperature", (1350, 1500))], [], []⟩) [1 / 2]) :=
  suggest_next_point_in_bounds ⟨[("kiln_temperature", (1350, 1500))], [], []⟩
    [1 / 2] [⟨[1400], 0⟩] (by simp [bounds_array])
    (by intro v hv; simp at hv; norm_num [hv])
    (by intro b hb; simp [bounds_array] at hb; norm_num [hb])
    (by simp)
    (by
      intro res hres
      simp at hres
      rw [hres]
      exact List.Forall₂.cons (by norm_num [bounds_array]) List.Forall₂.nil)

/- ---------------------------------------------------------------------------
Process objective: `ProcessOptimizer` from
`backend/app/services/physics_informed_models.py`.

`objective_function` is state-passing embedded: the method reads only its
arguments (never `self`'s mutable attributes) and writes nothing, so the
embedding returns the score together with the unchanged optimizer state.
Rational division by zero is 0 in Lean; the Python body would instead raise
on `fuel == 0`, a value excluded by the configured bound `fuel_rate ∈ [8, 15]`.
--------------------------------------------------------------------------- -/

/-- The parameter dict read by `objective_function` (the keys of
`ProcessOptimizer.bounds`). -/
structure ParamVec where
  kiln_temperature : ℚ
  kiln_speed : ℚ
  fuel_rate : ℚ
  air_flow : ℚ
  residence_time : ℚ
  feed_rate : ℚ

/-- `public_data['weather']` when present; `temperature` models
`.get('temperature', 25)`. -/
structure WeatherData where
  temperature : Option ℚ

/-- One entry of the `alternative_fuels['fuels']` dict;
`availability_tonnes` may be absent. -/
structure AltFuelEntry where
  availability_tonnes : Option ℚ

/-- The `alternative_fuels` value.  `truthy` models Python dict truthiness
(`if alt_fuels:`); `fuels` is the `.get('fuels', {})` entry, the empty list
standing for an absent or empty inner dict. -/
structure AltFuelsData where
  truthy : Bool
  fuels : List (String × AltFuelEntry)

/-- The `public_data` context dict; `none` models an absent key. -/
structure PublicData where
  weather : Option WeatherData
  alternative_fuels : Option AltFuelsData

/-- `ProcessOptimizer._calculate_energy_efficiency`. -/
def calculate_energy_efficiency (temp fuel air : ℚ) : ℚ :=
  let temp_efficiency := 1 - |temp - 1450| / 150
  let fuel_efficiency := 1 - (fuel - 8) / 7
  let air_fuel_ratio := air / fuel
  let ratio_efficiency := 1 - |air_fuel_ratio - 10| / 10
  (temp_efficiency + fuel_efficiency + ratio_efficiency) / 3

/-- `ProcessOptimizer._calculate_quality_score`. -/
def calculate_quality_score (temp residence_time kiln_speed : ℚ) : ℚ :=
  let temp_quality := 1 - |temp - 1450| / 100
  let time_quality := 1 - |residence_time - 30| / 10
  let speed_quality := 1 - |kiln_speed - 4| / 2
  (temp_quality + time_quality + speed_quality) / 3

/-- `ProcessOptimizer._calculate_environmental_score`; `alt_fuels` is the
`public_data.get('alternative_fuels', {})` value, `none` standing for the
falsy `{}` default. -/
def calculate_environmental_score (fuel_rate : ℚ) (alt_fuels : Option AltFuelsData) : ℚ :=
  let base_co2 := fuel_rate * 94.6
  let alt_fuel_potential :=
    match alt_fuels with
    | none => 0
    | some d =>
      if d.truthy then
        (d.fuels.map (fun p =>
          match p.2.availability_tonnes with
          | some a => a * 0.001
          | none => 0)).sum
      else 0
  let reduction_factor := min 0.5 (alt_fuel_potential / fuel_rate)
  1 - base_co2 * (1 - reduction_factor) / (fuel_rate * 100)

/-- `ProcessOptimizer` attribute state: the construction-time bounds and the
lazily created Bayesian optimizer (its only mutable attributes). -/
structure ProcessOptimizerState where
  bounds : List (String × (ℚ × ℚ))
  bayesian_optimizer : Option BayesState

/-- `ProcessOptimizer.objective_function`, state-passing: the returned state
is what the method leaves behind (it performs no writes). -/
def objective_function (st : ProcessOptimizerState) (params : ParamVec)
    (public_data : PublicData) : ℚ × ProcessOptimizerState :=
  let energy_eff := calculate_energy_efficiency params.kiln_temperature
    params.fuel_rate params.air_flow
  let quality_score := calculate_quality_score params.kiln_temperature
    params.residence_time params.kiln_speed
  let env_score := calculate_environmental_score params.fuel_rate
    public_data.alternative_fuels
  let weather_penalty :=
    match public_data.weather with
    | none => 0
    | some w => |w.temperature.getD 25 - 25| * 0.001
  (0.4 * energy_eff + 0.35 * quality_score + 0.25 * env_score - weather_penalty, st)

/-- C9: the process objective is deterministic and side-effect-free — its
score does not depend on the optimizer's mutable state (two calls with equal
parameters and context agree, whatever states they run in), and the state it
returns is exactly the state it was given. -/
theorem objective_function_pure (st st' : ProcessOptimizerState)
    (params : ParamVec) (public_data : PublicData) :
    (objective_function st params public_data).1 =
      (objective_function st' params public_data).1 ∧
    (objective_function st params public_data).2 = st :=
  ⟨rfl, rfl⟩
